import Mathlib

/-!
Verification of the installer core of the Enderfall Hub desktop application
(source file `src-tauri/src/main.rs`).

The Rust source is shallowly embedded: the filesystem is the set of existing
paths, progress events are the list of emitted fractions (modelled over the
exact rationals), HTTP responses and the outcomes of spawned helper
processes are explicit values, and every command becomes a pure function
from those inputs to its result, its emitted events and the final
filesystem state.
-/

/-! ## Filesystem and environment model -/

/-- A filesystem path, as its list of components. -/
abbrev OsPath := List String

/-- The filesystem, modelled as the collection of existing paths.
Nominal OS semantics: removing or creating an entry always succeeds. -/
structure FS where
  paths : List OsPath
deriving DecidableEq

/-- Mirrors `Path::exists` (also the `path_exists` command). -/
def FS.hasPath (fs : FS) (p : OsPath) : Bool := decide (p ∈ fs.paths)

/-- Creating a file or directory entry (`File::create`, `create_dir_all`). -/
def FS.addPath (fs : FS) (p : OsPath) : FS := ⟨p :: fs.paths⟩

/-- Mirrors `std::fs::remove_dir_all`: removes the directory together with
everything below it. -/
def FS.removeDirAll (fs : FS) (p : OsPath) : FS :=
  ⟨fs.paths.filter (fun q => !(p.isPrefixOf q))⟩

/-- Mirrors `std::fs::remove_file`. -/
def FS.removeFile (fs : FS) (p : OsPath) : FS :=
  ⟨fs.paths.filter (fun q => !(q == p))⟩

/-- The ambient platform locations consulted by the shortcut code:
the result of `tauri::api::path::desktop_dir()` and the `APPDATA`
environment variable (`none` when unavailable). -/
structure SysEnv where
  desktopDir : Option OsPath
  appData : Option String
deriving DecidableEq

/-- The shortcut file name derived from the app name (`"<app_name>.lnk"`,
lines 261, 274, 290, 303, 346 and 358 of the source). -/
def shortcutName (appName : String) : String := appName ++ ".lnk"

/-- The vendor-scoped start-menu folder derived from `APPDATA`
(lines 268-273, 297-302 and 352-357 of the source). -/
def startMenuDir (appdata : String) : OsPath :=
  [appdata, "Microsoft", "Windows", "Start Menu", "Programs", "Enderfall"]

/-! ## Preferences store -/

/-- The `HubPreferences` record (every field serde-defaulted). -/
structure HubPreferences where
  open_on_startup : Bool
  close_to_tray : Bool
  minimize_to_tray : Bool
  install_dir : Option String
  installer_type : Option String
deriving DecidableEq

/-- The derived `HubPreferences::default()`: all flags false, both optional
fields absent. -/
def HubPreferences.defaultPrefs : HubPreferences :=
  ⟨false, false, false, none, none⟩

/-- The update record accepted by `set_hub_preferences`: only the three
boolean flags can be supplied. -/
structure HubPreferencesUpdate where
  open_on_startup : Option Bool
  close_to_tray : Option Bool
  minimize_to_tray : Option Bool
deriving DecidableEq

/-- The preferences file: `some p` when present and parsable, `none` when
the file is missing or unparsable. -/
abbrev PrefsDisk := Option HubPreferences

/-- Environment of `write_hub_preferences`: whether a local data directory
resolves and whether the filesystem write itself succeeds. -/
structure PrefsDiskEnv where
  hasLocalDataDir : Bool
  writeSucceeds : Bool
deriving DecidableEq

/-- Mirrors `load_hub_preferences`: a missing or unparsable file yields the
default record and the caller never sees an error. -/
def load_hub_preferences (disk : PrefsDisk) : HubPreferences :=
  match disk with
  | some prefs => prefs
  | none => HubPreferences.defaultPrefs

/-- Mirrors `write_hub_preferences`: the whole record is rewritten on
success; a missing local data directory or a failed write is an error. -/
def write_hub_preferences (env : PrefsDiskEnv) (prefs : HubPreferences) :
    Except String PrefsDisk :=
  if env.hasLocalDataDir = false then .error "Missing local data dir"
  else if env.writeSucceeds = false then .error "write error"
  else .ok (some prefs)

/-- The field merge performed in the body of `set_hub_preferences`
(lines 82-90 of the source): each flag present in the update overwrites the
loaded value, everything else is kept. -/
def applyUpdate (prefs : HubPreferences) (update : HubPreferencesUpdate) :
    HubPreferences :=
  let p1 := match update.open_on_startup with
    | some value => { prefs with open_on_startup := value }
    | none => prefs
  let p2 := match update.close_to_tray with
    | some value => { p1 with close_to_tray := value }
    | none => p1
  match update.minimize_to_tray with
  | some value => { p2 with minimize_to_tray := value }
  | none => p2

/-- Mirrors the `set_hub_preferences` command: load from disk, merge the
update, persist, and only after a successful write refresh the shared
in-process cache.  Returns (command result, new disk contents, new cache
contents). -/
def set_hub_preferences (env : PrefsDiskEnv) (disk : PrefsDisk)
    (cache : HubPreferences) (update : HubPreferencesUpdate) :
    Except String HubPreferences × PrefsDisk × HubPreferences :=
  let prefs := applyUpdate (load_hub_preferences disk) update
  match write_hub_preferences env prefs with
  | .error e => (.error e, disk, cache)
  | .ok disk2 => (.ok prefs, disk2, prefs)

/-! ## Payload acquirer: local copy -/

/-- The read/write/emit loop of `copy_installer` (lines 165-180), with the
source contents as a byte list.  Each iteration reads at most 1048576 bytes
(the 1 MiB buffer), appends them to the destination and then emits one
progress fraction: `1` if the total size is zero, `copied / total`
otherwise.  The loop stops at the first empty read.  `fuel` only bounds the
number of iterations; each iteration consumes at least one byte, so
`fuel = src.length` always suffices and the extra parameter does not change
the computed value. -/
def copyLoopF : Nat → Nat → List Nat → Nat → List ℚ × List Nat
  | 0, _, _, _ => ([], [])
  | _ + 1, _, [], _ => ([], [])
  | fuel + 1, total, b :: rest, copied =>
    let readBytes := (b :: rest).take 1048576
    let copied2 := copied + readBytes.length
    let progress : ℚ := if total = 0 then 1 else (copied2 : ℚ) / (total : ℚ)
    let r := copyLoopF fuel total ((b :: rest).drop 1048576) copied2
    (progress :: r.1, readBytes ++ r.2)

/-- Mirrors the `copy_installer` command.  `sourceAvailable` is the
`source.exists()` check and `hasFileName` the `file_name()` check; the
total size passed to the loop is the source metadata length, i.e. the
length of the source contents.  On success the result carries the emitted
progress events and the destination file contents. -/
def copy_installer (sourceAvailable hasFileName : Bool) (srcBytes : List Nat) :
    Except String (List ℚ × List Nat) :=
  if sourceAvailable = false then .error "Installer not found."
  else if hasFileName = false then .error "Installer filename missing."
  else
    .ok (copyLoopF srcBytes.length srcBytes.length srcBytes 0)

/-! ## Payload acquirer: download -/

/-- An HTTP response as observed by `download_installer`: whether the status
is a success, the numeric status code, the declared content length (if any)
and the body bytes actually streamed. -/
structure HttpResponse where
  success : Bool
  statusCode : Nat
  contentLength : Option Nat
  body : List Nat
deriving DecidableEq

/-- The file name derivation of `download_installer` (lines 381-385):
the final `/`-separated segment of the URL, or `installer.bin` when that
segment is empty. -/
def downloadFileName (url : String) : String :=
  match (url.splitOn "/").getLast? with
  | some seg => if seg.isEmpty then "installer.bin" else seg
  | none => "installer.bin"

/-- The streaming loop of `download_installer` (lines 398-415): 262144-byte
(256 KiB) chunks; a progress event is emitted only when the declared total
is positive, and its value is clamped with `min 1`.  `fuel` bounds the
iteration count exactly as in `copyLoopF`. -/
def downloadLoopF : Nat → Nat → List Nat → Nat → List ℚ × List Nat
  | 0, _, _, _ => ([], [])
  | _ + 1, _, [], _ => ([], [])
  | fuel + 1, total, b :: rest, copied =>
    let readBytes := (b :: rest).take 262144
    let copied2 := copied + readBytes.length
    let r := downloadLoopF fuel total ((b :: rest).drop 262144) copied2
    if 0 < total then
      (min ((copied2 : ℚ) / (total : ℚ)) 1 :: r.1, readBytes ++ r.2)
    else (r.1, readBytes ++ r.2)

/-- Mirrors the `download_installer` command.  The destination directory is
created and the file name derived before the request; the destination FILE
is created only after the status check succeeds, hence the third component
is `none` (no file) on a non-success status.  `total` is
`content_length().unwrap_or(0)`.  Returns (result carrying the derived file
name, emitted progress events, destination file contents if created). -/
def download_installer (url : String) (resp : HttpResponse) :
    Except String String × List ℚ × Option (List Nat) :=
  if resp.success = false then
    (.error ("Failed to download installer: " ++ toString resp.statusCode), [], none)
  else
    let total := resp.contentLength.getD 0
    let r := downloadLoopF resp.body.length total resp.body 0
    (.ok (downloadFileName url), r.1, some r.2)

/-! ## Shortcut manager -/

/-- Outcome of the spawned powershell helper in `create_shortcut`:
either `Command::status()` itself fails (spawn error), or the process runs
and exits, successfully or not. -/
inductive SpawnOutcome where
  | spawnError (msg : String)
  | exited (ok : Bool)
deriving DecidableEq

/-- Mirrors the `create_shortcut` helper (lines 120-135).  Parent-directory
creation is nominal.  A spawn failure of the powershell process is returned
as an error; the exit status of the process is NOT inspected by the source
(line 132 discards it), so a failed script still yields `Ok` — the `.lnk`
file appears on disk only when the script actually succeeded. -/
def create_shortcut (fs : FS) (outcome : SpawnOutcome)
    (shortcutPath targetPath workingDir : OsPath) : Except String Unit × FS :=
  match outcome with
  | .spawnError msg => (.error msg, fs)
  | .exited ok => (.ok (), if ok then fs.addPath shortcutPath else fs)

/-- A record of one `create_shortcut` invocation, including whether the
target path existed in the filesystem at the moment of the call. -/
structure ShortcutCall where
  shortcutPath : OsPath
  targetPath : OsPath
  workingDir : OsPath
  targetExistsAtCall : Bool
deriving DecidableEq

/-- One guarded linking block, shared by `create_shortcuts` and
`install_msi_payload`: when the flag is set and the base directory
resolves, derive the shortcut path and invoke `create_shortcut`; a missing
base directory silently skips the block.  Returns (result, filesystem,
invocation log). -/
def linkOne (fs : FS) (outcome : SpawnOutcome) (base : Option OsPath)
    (flag : Bool) (relName : String) (target workingDir : OsPath) :
    Except String Unit × FS × List ShortcutCall :=
  if flag then
    match base with
    | some dir =>
      let shortcut := dir ++ [relName]
      let call : ShortcutCall := ⟨shortcut, target, workingDir, fs.hasPath target⟩
      let r := create_shortcut fs outcome shortcut target workingDir
      match r.1 with
      | .error e => (.error e, r.2, [call])
      | .ok _ => (.ok (), r.2, [call])
    | none => (.ok (), fs, [])
  else (.ok (), fs, [])

/-- Mirrors the `create_shortcuts` command (lines 244-280): the target
executable must exist and have a parent directory; then desktop and
start-menu shortcuts are attempted in order, each `create_shortcut` error
propagating immediately (the source applies the question-mark operator at
lines 262 and 275). -/
def create_shortcuts (env : SysEnv) (fs : FS) (exePath : OsPath)
    (appName : String) (createDesktopShortcut createStartMenuShortcut : Bool)
    (dOut sOut : SpawnOutcome) : Except String Unit × FS × List ShortcutCall :=
  if fs.hasPath exePath = false then (.error "Executable not found.", fs, [])
  else if exePath = [] then (.error "Executable directory missing.", fs, [])
  else
    let workingDir := exePath.dropLast
    let d := linkOne fs dOut env.desktopDir createDesktopShortcut
      (shortcutName appName) exePath workingDir
    match d.1 with
    | .error e => (.error e, d.2.1, d.2.2)
    | .ok _ =>
      let s := linkOne d.2.1 sOut (env.appData.map startMenuDir)
        createStartMenuShortcut (shortcutName appName) exePath workingDir
      (s.1, s.2.1, d.2.2 ++ s.2.2)

/-! ## Uninstaller -/

/-- Mirrors the `uninstall_app` command (lines 282-310): remove the install
directory tree if it exists, then remove each derived shortcut if it
exists; absence of any of them is not an error.  Under nominal filesystem
semantics the removals succeed, so the command never fails. -/
def uninstall_app (env : SysEnv) (fs : FS) (installDir : OsPath)
    (appName : String) : Except String FS :=
  let fs1 := if fs.hasPath installDir then fs.removeDirAll installDir else fs
  let fs2 := match env.desktopDir with
    | some desktop =>
      let shortcut := desktop ++ [shortcutName appName]
      if fs1.hasPath shortcut then fs1.removeFile shortcut else fs1
    | none => fs1
  let fs3 := match env.appData with
    | some appdata =>
      let shortcut := startMenuDir appdata ++ [shortcutName appName]
      if fs2.hasPath shortcut then fs2.removeFile shortcut else fs2
    | none => fs2
  .ok fs3

/-! ## Installation orchestrator -/

/-- Modelled from the spec: the `msi_extract` crate is an external
dependency whose source is not part of this repository.  Per the spec the
extraction step "fails with `ExtractError` if the archive cannot be parsed
or a contained entry cannot be written".  `parseError` is a failure of
`MsiExtractor::from_path`; `extracted entries writeError` is a run of
`extractor.to(..)` that wrote `entries` (relative paths) into the install
directory and reported `writeError` if some contained entry could not be
written.  How the orchestrator treats each outcome is taken from the
source: `from_path` is propagated with the question-mark operator
(line 335), while the result of `extractor.to(&install_path)` is discarded
(line 336). -/
inductive ExtractOutcome where
  | parseError (msg : String)
  | extracted (entries : List OsPath) (writeError : Option String)
deriving DecidableEq

/-- Mirrors the `install_msi_payload` command (lines 312-369): validate the
installer path, create the install directory, emit progress 1/10, extract
(aborting only on a parse failure, the write outcome being discarded), emit
progress 17/20, link the requested shortcuts (each `create_shortcut` error
propagating through the question-mark operator at lines 347 and 359, a
missing base directory silently skipping that kind), and finally emit
progress 1.  Returns (result, emitted progress events, filesystem,
shortcut invocation log). -/
def install_msi_payload (env : SysEnv) (fs : FS)
    (installerPath installDir : OsPath) (exeName appName : String)
    (createDesktopShortcut createStartMenuShortcut : Bool)
    (extraction : ExtractOutcome) (dOut sOut : SpawnOutcome) :
    Except String Unit × List ℚ × FS × List ShortcutCall :=
  if fs.hasPath installerPath = false then
    (.error "Installer not found.", [], fs, [])
  else
    let fs0 := fs.addPath installDir
    let events : List ℚ := [1/10]
    match extraction with
    | .parseError msg => (.error msg, events, fs0, [])
    | .extracted entries _writeError =>
      let fs1 := entries.foldl (fun acc entry => acc.addPath (installDir ++ entry)) fs0
      let events := events ++ [17/20]
      let exePath := installDir ++ [exeName]
      let d := linkOne fs1 dOut env.desktopDir createDesktopShortcut
        (shortcutName appName) exePath installDir
      match d.1 with
      | .error e => (.error e, events, d.2.1, d.2.2)
      | .ok _ =>
        let s := linkOne d.2.1 sOut (env.appData.map startMenuDir)
          createStartMenuShortcut (shortcutName appName) exePath installDir
        match s.1 with
        | .error e => (.error e, events, s.2.1, d.2.2 ++ s.2.2)
        | .ok _ => (.ok (), events ++ [1], s.2.1, d.2.2 ++ s.2.2)

/-! ## Basic filesystem lemmas -/

theorem isPrefixOf_self (l : OsPath) : l.isPrefixOf l = true := by
  induction l with
  | nil => rfl
  | cons a t ih => simpa using ih

theorem FS.hasPath_mk_filter_false (fs : FS) (f : OsPath → Bool) (q : OsPath)
    (h : fs.hasPath q = false) : (FS.mk (fs.paths.filter f)).hasPath q = false := by
  have h2 : q ∉ fs.paths := by simpa [FS.hasPath] using h
  simp only [FS.hasPath, decide_eq_false_iff_not]
  intro hq
  exact absurd (List.mem_of_mem_filter hq) h2

theorem FS.hasPath_removeDirAll_self (fs : FS) (p : OsPath) :
    (fs.removeDirAll p).hasPath p = false := by
  simp [FS.hasPath, FS.removeDirAll, List.mem_filter, isPrefixOf_self]

theorem FS.hasPath_removeFile_self (fs : FS) (p : OsPath) :
    (fs.removeFile p).hasPath p = false := by
  simp [FS.hasPath, FS.removeFile, List.mem_filter]

theorem FS.hasPath_removeDirAll_false (fs : FS) (p q : OsPath)
    (h : fs.hasPath q = false) : (fs.removeDirAll p).hasPath q = false :=
  FS.hasPath_mk_filter_false fs _ q h

theorem FS.hasPath_removeFile_false (fs : FS) (p q : OsPath)
    (h : fs.hasPath q = false) : (fs.removeFile p).hasPath q = false :=
  FS.hasPath_mk_filter_false fs _ q h

theorem removeIfPresentDir_not (fs : FS) (p : OsPath) :
    ((if fs.hasPath p then fs.removeDirAll p else fs) : FS).hasPath p = false := by
  by_cases h : fs.hasPath p = true
  · simp [h, FS.hasPath_removeDirAll_self]
  · simp only [Bool.not_eq_true] at h
    simp [h]

theorem removeIfPresentFile_not (fs : FS) (p : OsPath) :
    ((if fs.hasPath p then fs.removeFile p else fs) : FS).hasPath p = false := by
  by_cases h : fs.hasPath p = true
  · simp [h, FS.hasPath_removeFile_self]
  · simp only [Bool.not_eq_true] at h
    simp [h]

theorem removeIfPresentDir_pres (fs : FS) (p q : OsPath)
    (h : fs.hasPath q = false) :
    ((if fs.hasPath p then fs.removeDirAll p else fs) : FS).hasPath q = false := by
  by_cases hp : fs.hasPath p = true
  · simpa [hp] using FS.hasPath_removeDirAll_false fs p q h
  · simp [hp, h]

theorem removeIfPresentFile_pres (fs : FS) (p q : OsPath)
    (h : fs.hasPath q = false) :
    ((if fs.hasPath p then fs.removeFile p else fs) : FS).hasPath q = false := by
  by_cases hp : fs.hasPath p = true
  · simpa [hp] using FS.hasPath_removeFile_false fs p q h
  · simp [hp, h]

/-! ## Claim C8: partial preference updates are frame-preserving -/

/-- Claim C8: for every prior preferences state and every partial update,
`set_hub_preferences` overwrites exactly the boolean fields present in the
update, leaves every other field of the loaded record at its prior value —
in particular `install_dir` and `installer_type` are never mutated through
this path — and persists the full merged record to disk. -/
theorem set_hub_preferences_partial_update_frame
    (env : PrefsDiskEnv) (disk : PrefsDisk) (cache : HubPreferences)
    (update : HubPreferencesUpdate)
    (h1 : env.hasLocalDataDir = true) (h2 : env.writeSucceeds = true) :
    ∃ merged,
      set_hub_preferences env disk cache update = (.ok merged, some merged, merged) ∧
      merged.open_on_startup
        = update.open_on_startup.getD (load_hub_preferences disk).open_on_startup ∧
      merged.close_to_tray
        = update.close_to_tray.getD (load_hub_preferences disk).close_to_tray ∧
      merged.minimize_to_tray
        = update.minimize_to_tray.getD (load_hub_preferences disk).minimize_to_tray ∧
      merged.install_dir = (load_hub_preferences disk).install_dir ∧
      merged.installer_type = (load_hub_preferences disk).installer_type := by
  refine ⟨applyUpdate (load_hub_preferences disk) update, ?_, ?_, ?_, ?_, ?_, ?_⟩
  · simp [set_hub_preferences, write_hub_preferences, h1, h2]
  all_goals
    rcases update with ⟨o, c, m⟩
    cases o <;> cases c <;> cases m <;> simp [applyUpdate]

/-- Witness for the preference-update frame theorem: a prior record with
all-distinct field values, updated with only the close-to-tray flag. -/
theorem set_hub_preferences_partial_update_frame_witness :
    (⟨true, true⟩ : PrefsDiskEnv).hasLocalDataDir = true ∧
    (⟨true, true⟩ : PrefsDiskEnv).writeSucceeds = true ∧
    (∃ merged,
      set_hub_preferences ⟨true, true⟩
          (some ⟨true, false, true, some "DirA", some "msi"⟩)
          HubPreferences.defaultPrefs ⟨none, some true, none⟩
        = (.ok merged, some merged, merged) ∧
      merged.open_on_startup
        = (⟨none, some true, none⟩ : HubPreferencesUpdate).open_on_startup.getD
            (load_hub_preferences (some ⟨true, false, true, some "DirA", some "msi"⟩)).open_on_startup ∧
      merged.close_to_tray
        = (⟨none, some true, none⟩ : HubPreferencesUpdate).close_to_tray.getD
            (load_hub_preferences (some ⟨true, false, true, some "DirA", some "msi"⟩)).close_to_tray ∧
      merged.minimize_to_tray
        = (⟨none, some true, none⟩ : HubPreferencesUpdate).minimize_to_tray.getD
            (load_hub_preferences (some ⟨true, false, true, some "DirA", some "msi"⟩)).minimize_to_tray ∧
      merged.install_dir
        = (load_hub_preferences (some ⟨true, false, true, some "DirA", some "msi"⟩)).install_dir ∧
      merged.installer_type
        = (load_hub_preferences (some ⟨true, false, true, some "DirA", some "msi"⟩)).installer_type) :=
  ⟨rfl, rfl, set_hub_preferences_partial_update_frame _ _ _ _ rfl rfl⟩

/-! ## Claim C10: a failed write leaves the cache untouched -/

/-- Claim C10: when persisting the merged record to disk fails,
`set_hub_preferences` returns an error and the shared in-process cache is
left unchanged — the disk write strictly precedes the cache refresh. -/
theorem set_hub_preferences_write_failure_cache_unchanged
    (env : PrefsDiskEnv) (disk : PrefsDisk) (cache : HubPreferences)
    (update : HubPreferencesUpdate) (h : env.writeSucceeds = false) :
    (∃ e, (set_hub_preferences env disk cache update).1 = .error e) ∧
    (set_hub_preferences env disk cache update).2.2 = cache := by
  rcases env with ⟨hdd, ws⟩
  have hws : ws = false := h
  subst hws
  cases hdd
  · exact ⟨⟨"Missing local data dir", rfl⟩, rfl⟩
  · exact ⟨⟨"write error", rfl⟩, rfl⟩

/-- Witness for the failed-write theorem at a concrete state. -/
theorem set_hub_preferences_write_failure_cache_unchanged_witness :
    (⟨true, false⟩ : PrefsDiskEnv).writeSucceeds = false ∧
    ((∃ e, (set_hub_preferences ⟨true, false⟩ none
        ⟨true, true, false, none, none⟩ ⟨some false, none, none⟩).1 = .error e) ∧
      (set_hub_preferences ⟨true, false⟩ none
        ⟨true, true, false, none, none⟩ ⟨some false, none, none⟩).2.2
        = ⟨true, true, false, none, none⟩) :=
  ⟨rfl, set_hub_preferences_write_failure_cache_unchanged _ _ _ _ rfl⟩

/-! ## Claim C7: uninstall is idempotent -/

theorem uninstall_app_spec (env : SysEnv) (fs : FS)
    (installDir : OsPath) (appName : String) :
    ∃ fs1, uninstall_app env fs installDir appName = .ok fs1 ∧
      fs1.hasPath installDir = false ∧
      (∀ d, env.desktopDir = some d →
        fs1.hasPath (d ++ [shortcutName appName]) = false) ∧
      (∀ a, env.appData = some a →
        fs1.hasPath (startMenuDir a ++ [shortcutName appName]) = false) := by
  rcases env with ⟨dd, ad⟩
  refine ⟨_, rfl, ?_, ?_, ?_⟩
  · cases dd with
    | none =>
      cases ad with
      | none => exact removeIfPresentDir_not _ _
      | some a => exact removeIfPresentFile_pres _ _ _ (removeIfPresentDir_not _ _)
    | some d =>
      cases ad with
      | none => exact removeIfPresentFile_pres _ _ _ (removeIfPresentDir_not _ _)
      | some a =>
        exact removeIfPresentFile_pres _ _ _
          (removeIfPresentFile_pres _ _ _ (removeIfPresentDir_not _ _))
  · intro d hd
    cases dd with
    | none => cases hd
    | some d0 =>
      cases hd
      cases ad with
      | none => exact removeIfPresentFile_not _ _
      | some a => exact removeIfPresentFile_pres _ _ _ (removeIfPresentFile_not _ _)
  · intro a ha
    cases ad with
    | none => cases ha
    | some a0 =>
      cases ha
      cases dd with
      | none => exact removeIfPresentFile_not _ _
      | some d => exact removeIfPresentFile_not _ _

theorem uninstall_app_noop (env : SysEnv) (fs : FS)
    (installDir : OsPath) (appName : String)
    (h1 : fs.hasPath installDir = false)
    (h2 : ∀ d, env.desktopDir = some d →
      fs.hasPath (d ++ [shortcutName appName]) = false)
    (h3 : ∀ a, env.appData = some a →
      fs.hasPath (startMenuDir a ++ [shortcutName appName]) = false) :
    uninstall_app env fs installDir appName = .ok fs := by
  rcases env with ⟨dd, ad⟩
  cases dd with
  | none =>
    cases ad with
    | none => simp [uninstall_app, h1]
    | some a => simp [uninstall_app, h1, h3 a rfl]
  | some d =>
    cases ad with
    | none => simp [uninstall_app, h1, h2 d rfl]
    | some a => simp [uninstall_app, h1, h2 d rfl, h3 a rfl]

/-- Claim C7: `uninstall_app` is idempotent: the first call succeeds and
leaves neither the install directory nor any derived shortcut behind, a
second call on the same arguments succeeds as well (absence of the
directory or of either shortcut is never an error) and leaves the
filesystem exactly as the first call did. -/
theorem uninstall_app_idempotent (env : SysEnv) (fs : FS)
    (installDir : OsPath) (appName : String) :
    ∃ fs1, uninstall_app env fs installDir appName = .ok fs1 ∧
      uninstall_app env fs1 installDir appName = .ok fs1 ∧
      fs1.hasPath installDir = false ∧
      (∀ d, env.desktopDir = some d →
        fs1.hasPath (d ++ [shortcutName appName]) = false) ∧
      (∀ a, env.appData = some a →
        fs1.hasPath (startMenuDir a ++ [shortcutName appName]) = false) := by
  obtain ⟨fs1, he, hdir, hd, ha⟩ := uninstall_app_spec env fs installDir appName
  exact ⟨fs1, he, uninstall_app_noop env fs1 installDir appName hdir hd ha,
    hdir, hd, ha⟩

/-- Witness for the uninstall idempotency theorem: a filesystem holding an
installed app, a file inside its directory and both shortcuts. -/
theorem uninstall_app_idempotent_witness :
    ∃ fs1, uninstall_app ⟨some ["Desk"], some "Roaming"⟩
        ⟨[["C", "App"], ["C", "App", "app.exe"], ["Desk", "App.lnk"],
          ["Roaming", "Microsoft", "Windows", "Start Menu", "Programs",
            "Enderfall", "App.lnk"]]⟩ ["C", "App"] "App" = .ok fs1 ∧
      uninstall_app ⟨some ["Desk"], some "Roaming"⟩ fs1 ["C", "App"] "App"
        = .ok fs1 ∧
      fs1.hasPath ["C", "App"] = false ∧
      (∀ d, (⟨some ["Desk"], some "Roaming"⟩ : SysEnv).desktopDir = some d →
        fs1.hasPath (d ++ [shortcutName "App"]) = false) ∧
      (∀ a, (⟨some ["Desk"], some "Roaming"⟩ : SysEnv).appData = some a →
        fs1.hasPath (startMenuDir a ++ [shortcutName "App"]) = false) :=
  uninstall_app_idempotent _ _ _ _

/-! ## Claim C3: copy of an empty source -/

/-- Claim C3 (amended): a copy of an existing empty source file succeeds,
emits NO progress events — the loop breaks at the first empty read before
any emission, so the division-by-zero guard at line 172 of the source is
unreachable for a fixed empty source — and produces a zero-length
destination file. -/
theorem copy_empty_no_progress_events :
    copy_installer true true [] = .ok ([], []) := rfl

/-- Counterexample to claim C3 as stated: on an empty source the command
emits the empty list of progress events, not exactly one event with
value 1. -/
theorem copy_empty_counterexample :
    (copy_installer true true []).toOption.map Prod.fst = some [] ∧
    (copy_installer true true []).toOption.map Prod.fst ≠ some [(1 : ℚ)] := by
  constructor
  · rfl
  · decide

/-! ## Claim C4: copy of a non-empty source -/

theorem copyLoopF_nil (fuel total copied : Nat) :
    copyLoopF fuel total [] copied = ([], []) := by
  cases fuel <;> rfl

theorem copyLoopF_dest (fuel : Nat) :
    ∀ (total : Nat) (src : List Nat) (copied : Nat), src.length ≤ fuel →
      (copyLoopF fuel total src copied).2 = src := by
  induction fuel with
  | zero =>
    intro total src copied h
    cases src with
    | nil => rfl
    | cons b rest => simp at h
  | succ fuel ih =>
    intro total src copied h
    cases src with
    | nil => rfl
    | cons b rest =>
      have hlen : ((b :: rest).drop 1048576).length ≤ fuel := by
        simp only [List.length_drop, List.length_cons] at h ⊢
        omega
      simp only [copyLoopF,
        ih total ((b :: rest).drop 1048576)
          (copied + ((b :: rest).take 1048576).length) hlen]
      exact List.take_append_drop _ _

theorem copyLoopF_chain (fuel : Nat) :
    ∀ (total : Nat) (src : List Nat) (copied : Nat), total ≠ 0 →
      (∀ q ∈ (copyLoopF fuel total src copied).1,
        ((copied : ℚ) / (total : ℚ)) ≤ q) ∧
      List.Chain' (fun a b => a ≤ b) (copyLoopF fuel total src copied).1 := by
  induction fuel with
  | zero =>
    intro total src copied ht
    constructor <;> simp [copyLoopF]
  | succ fuel ih =>
    intro total src copied ht
    cases src with
    | nil => constructor <;> simp [copyLoopF]
    | cons b rest =>
      have htot : (0 : ℚ) < (total : ℚ) := by
        exact_mod_cast Nat.pos_of_ne_zero ht
      have hstep : ((copied : ℚ) / (total : ℚ))
          ≤ (((copied + ((b :: rest).take 1048576).length : Nat) : ℚ) / (total : ℚ)) := by
        apply (div_le_div_right htot).mpr
        exact_mod_cast Nat.le_add_right _ _
      obtain ⟨hmem, hchain⟩ :=
        ih total ((b :: rest).drop 1048576)
          (copied + ((b :: rest).take 1048576).length) ht
      simp only [copyLoopF, if_neg ht]
      constructor
      · intro q hq
        rcases List.mem_cons.mp hq with hq | hq
        · subst hq
          exact_mod_cast hstep
        · exact le_trans hstep (by exact_mod_cast hmem q hq)
      · apply List.chain'_cons'.mpr
        refine ⟨?_, hchain⟩
        intro y hy
        have hmy := hmem y (List.mem_of_mem_head? hy)
        exact_mod_cast hmy

theorem copyLoopF_length (fuel : Nat) :
    ∀ (total : Nat) (src : List Nat) (copied : Nat), src.length ≤ fuel →
      (copyLoopF fuel total src copied).1.length
        = (src.length + 1048575) / 1048576 := by
  induction fuel with
  | zero =>
    intro total src copied h
    cases src with
    | nil => simp [copyLoopF]
    | cons b rest => simp at h
  | succ fuel ih =>
    intro total src copied h
    cases src with
    | nil => simp [copyLoopF]
    | cons b rest =>
      have hlen : ((b :: rest).drop 1048576).length ≤ fuel := by
        simp only [List.length_drop, List.length_cons] at h ⊢
        omega
      simp only [copyLoopF, List.length_cons,
        ih total ((b :: rest).drop 1048576)
          (copied + ((b :: rest).take 1048576).length) hlen]
      simp only [List.length_drop, List.length_cons]
      omega

theorem copyLoopF_getLast (fuel : Nat) :
    ∀ (total : Nat) (src : List Nat) (copied : Nat), src ≠ [] →
      src.length ≤ fuel → total ≠ 0 →
      (copyLoopF fuel total src copied).1.getLast?
        = some (((copied + src.length : Nat) : ℚ) / (total : ℚ)) := by
  induction fuel with
  | zero =>
    intro total src copied hne h ht
    cases src with
    | nil => exact absurd rfl hne
    | cons b rest => simp at h
  | succ fuel ih =>
    intro total src copied hne h ht
    cases src with
    | nil => exact absurd rfl hne
    | cons b rest =>
      by_cases hdrop : (b :: rest).drop 1048576 = []
      · have hle : (b :: rest).length ≤ 1048576 := List.drop_eq_nil_iff.mp hdrop
        have htake : ((b :: rest).take 1048576).length = (b :: rest).length := by
          simp only [List.length_take]
          omega
        simp only [copyLoopF, hdrop, copyLoopF_nil, if_neg ht, htake]
        rfl
      · have hlen : ((b :: rest).drop 1048576).length ≤ fuel := by
          simp only [List.length_drop, List.length_cons] at h ⊢
          omega
        have hrec := ih total ((b :: rest).drop 1048576)
          (copied + ((b :: rest).take 1048576).length) hdrop hlen ht
        have harith : copied + ((b :: rest).take 1048576).length
            + ((b :: rest).drop 1048576).length = copied + (b :: rest).length := by
          simp only [List.length_take, List.length_drop, List.length_cons]
          omega
        rw [harith] at hrec
        simp only [copyLoopF, if_neg ht]
        cases hr : (copyLoopF fuel total ((b :: rest).drop 1048576)
            (copied + ((b :: rest).take 1048576).length)).1 with
        | nil => rw [hr] at hrec; simp at hrec
        | cons c t =>
          rw [hr] at hrec
          rw [List.getLast?_cons_cons]
          exact hrec

/-- Claim C4: copying an existing non-empty source file succeeds, the
emitted progress values are monotonically non-decreasing with one event per
chunk read (1 MiB chunks, so ceil(N / 1048576) events for N source bytes),
the last emitted value equals 1, and the destination file is byte-identical
to the source. -/
theorem copy_nonempty_progress_correct (src : List Nat) (h : 0 < src.length) :
    ∃ evs dest, copy_installer true true src = .ok (evs, dest) ∧
      List.Chain' (fun a b => a ≤ b) evs ∧
      evs.length = (src.length + 1048575) / 1048576 ∧
      evs.getLast? = some 1 ∧
      dest = src := by
  have hne : src ≠ [] := by
    intro hs
    subst hs
    simp at h
  have ht : src.length ≠ 0 := by omega
  have hc : ((src.length : ℚ)) ≠ 0 := Nat.cast_ne_zero.mpr ht
  refine ⟨(copyLoopF src.length src.length src 0).1,
    (copyLoopF src.length src.length src 0).2, rfl,
    (copyLoopF_chain src.length src.length src 0 ht).2,
    copyLoopF_length src.length src.length src 0 le_rfl,
    ?_, copyLoopF_dest src.length src.length src 0 le_rfl⟩
  rw [copyLoopF_getLast src.length src.length src 0 hne le_rfl ht]
  simp [div_self hc]

/-- Witness for the non-empty copy theorem on a concrete three-byte file. -/
theorem copy_nonempty_progress_correct_witness :
    0 < [3, 1, 4].length ∧
    (∃ evs dest, copy_installer true true [3, 1, 4] = .ok (evs, dest) ∧
      List.Chain' (fun a b => a ≤ b) evs ∧
      evs.length = ([3, 1, 4].length + 1048575) / 1048576 ∧
      evs.getLast? = some 1 ∧
      dest = [3, 1, 4]) :=
  ⟨by decide, copy_nonempty_progress_correct [3, 1, 4] (by decide)⟩

/-! ## Claims C5 and C6: download progress and failure -/

theorem downloadLoopF_nil (fuel total copied : Nat) :
    downloadLoopF fuel total [] copied = ([], []) := by
  cases fuel <;> rfl

theorem downloadLoopF_mem_bounds (fuel : Nat) :
    ∀ (total : Nat) (src : List Nat) (copied : Nat),
      ∀ q ∈ (downloadLoopF fuel total src copied).1, 0 ≤ q ∧ q ≤ 1 := by
  induction fuel with
  | zero =>
    intro total src copied q hq
    simp [downloadLoopF] at hq
  | succ fuel ih =>
    intro total src copied q hq
    cases src with
    | nil => simp [downloadLoopF] at hq
    | cons b rest =>
      by_cases htot : 0 < total
      · simp only [downloadLoopF, if_pos htot] at hq
        rcases List.mem_cons.mp hq with hq | hq
        · subst hq
          refine ⟨le_min (by positivity) zero_le_one, min_le_right _ _⟩
        · exact ih total _ _ q hq
      · simp only [downloadLoopF, if_neg htot] at hq
        exact ih total _ _ q hq

theorem downloadLoopF_total_zero (fuel : Nat) :
    ∀ (src : List Nat) (copied : Nat),
      (downloadLoopF fuel 0 src copied).1 = [] := by
  induction fuel with
  | zero => intro src copied; rfl
  | succ fuel ih =>
    intro src copied
    cases src with
    | nil => rfl
    | cons b rest =>
      simp only [downloadLoopF, if_neg (Nat.lt_irrefl 0)]
      exact ih _ _

theorem downloadLoopF_dest (fuel : Nat) :
    ∀ (total : Nat) (src : List Nat) (copied : Nat), src.length ≤ fuel →
      (downloadLoopF fuel total src copied).2 = src := by
  induction fuel with
  | zero =>
    intro total src copied h
    cases src with
    | nil => rfl
    | cons b rest => simp at h
  | succ fuel ih =>
    intro total src copied h
    cases src with
    | nil => rfl
    | cons b rest =>
      have hlen : ((b :: rest).drop 262144).length ≤ fuel := by
        simp only [List.length_drop, List.length_cons] at h ⊢
        omega
      simp only [downloadLoopF]
      split <;>
        simp only [ih total ((b :: rest).drop 262144)
          (copied + ((b :: rest).take 262144).length) hlen,
          List.take_append_drop]

/-- Claim C5: for a successful download, when the content length is
declared every emitted progress value lies in the interval from 0 to 1
(clamped even if more bytes arrive than declared); when the content length
is unknown no progress events are emitted, yet the operation completes and
the destination file contains exactly the received response bytes. -/
theorem download_progress_contract (url : String) (resp : HttpResponse)
    (hs : resp.success = true) :
    (∀ L, resp.contentLength = some L →
      ∀ q ∈ (download_installer url resp).2.1, 0 ≤ q ∧ q ≤ 1) ∧
    (resp.contentLength = none →
      (download_installer url resp).2.1 = [] ∧
      (download_installer url resp).1 = .ok (downloadFileName url) ∧
      (download_installer url resp).2.2 = some resp.body) := by
  constructor
  · intro L hL q hq
    simp only [download_installer, hs] at hq
    norm_num at hq
    exact downloadLoopF_mem_bounds _ _ _ _ q hq
  · intro hnone
    have h0 : resp.contentLength.getD 0 = 0 := by rw [hnone]; rfl
    refine ⟨?_, ?_, ?_⟩
    · simp only [download_installer, hs]
      norm_num
      rw [h0]
      exact downloadLoopF_total_zero _ _ _
    · simp only [download_installer, hs]
      norm_num
    · simp only [download_installer, hs]
      norm_num
      exact downloadLoopF_dest _ _ _ _ le_rfl

/-- Witness for the download progress theorem: a successful response with
unknown content length and a two-byte body. -/
theorem download_progress_contract_witness :
    (⟨true, 200, none, [9, 8]⟩ : HttpResponse).success = true ∧
    ((∀ L, (⟨true, 200, none, [9, 8]⟩ : HttpResponse).contentLength = some L →
      ∀ q ∈ (download_installer "http://h/f.msi" ⟨true, 200, none, [9, 8]⟩).2.1,
        0 ≤ q ∧ q ≤ 1) ∧
    ((⟨true, 200, none, [9, 8]⟩ : HttpResponse).contentLength = none →
      (download_installer "http://h/f.msi" ⟨true, 200, none, [9, 8]⟩).2.1 = [] ∧
      (download_installer "http://h/f.msi" ⟨true, 200, none, [9, 8]⟩).1
        = .ok (downloadFileName "http://h/f.msi") ∧
      (download_installer "http://h/f.msi" ⟨true, 200, none, [9, 8]⟩).2.2
        = some (⟨true, 200, none, [9, 8]⟩ : HttpResponse).body)) :=
  ⟨rfl, download_progress_contract "http://h/f.msi" ⟨true, 200, none, [9, 8]⟩ rfl⟩

/-- Claim C6: a download whose HTTP response has a non-success status
returns an error carrying the status code, emits no progress events and
creates no destination file (the status check precedes file creation). -/
theorem download_non_success_no_file (url : String) (resp : HttpResponse)
    (hs : resp.success = false) :
    (download_installer url resp).1
      = .error ("Failed to download installer: " ++ toString resp.statusCode) ∧
    (download_installer url resp).2.1 = [] ∧
    (download_installer url resp).2.2 = none := by
  simp [download_installer, hs]

/-- Witness for the non-success download theorem: a 404 response. -/
theorem download_non_success_no_file_witness :
    (⟨false, 404, some 10, [1]⟩ : HttpResponse).success = false ∧
    ((download_installer "http://h/a.msi" ⟨false, 404, some 10, [1]⟩).1
      = .error ("Failed to download installer: "
          ++ toString (⟨false, 404, some 10, [1]⟩ : HttpResponse).statusCode) ∧
    (download_installer "http://h/a.msi" ⟨false, 404, some 10, [1]⟩).2.1 = [] ∧
    (download_installer "http://h/a.msi" ⟨false, 404, some 10, [1]⟩).2.2 = none) :=
  ⟨rfl, download_non_success_no_file "http://h/a.msi" ⟨false, 404, some 10, [1]⟩ rfl⟩

/-! ## Linking-step lemmas -/

theorem FS.hasPath_addPath_of (fs : FS) (p q : OsPath)
    (h : fs.hasPath q = true) : (fs.addPath p).hasPath q = true := by
  simp only [FS.hasPath, FS.addPath, decide_eq_true_eq, List.mem_cons] at h ⊢
  exact Or.inr h

theorem create_shortcut_fs_pres (fs : FS) (out : SpawnOutcome)
    (sc t w q : OsPath) (h : fs.hasPath q = true) :
    ((create_shortcut fs out sc t w).2).hasPath q = true := by
  cases out with
  | spawnError m => exact h
  | exited ok =>
    cases ok
    · exact h
    · exact FS.hasPath_addPath_of fs sc q h

theorem linkOne_calls_targetExists (fs : FS) (out : SpawnOutcome)
    (base : Option OsPath) (flag : Bool) (rel : String) (t w : OsPath) :
    ∀ c ∈ (linkOne fs out base flag rel t w).2.2,
      c.targetExistsAtCall = fs.hasPath t := by
  intro c hc
  cases flag with
  | false => simp [linkOne] at hc
  | true =>
    cases base with
    | none => simp [linkOne] at hc
    | some dir =>
      cases out with
      | spawnError m =>
        simp [linkOne, create_shortcut] at hc
        rw [hc]
      | exited ok =>
        simp [linkOne, create_shortcut] at hc
        rw [hc]

theorem linkOne_fs_pres (fs : FS) (out : SpawnOutcome)
    (base : Option OsPath) (flag : Bool) (rel : String) (t w q : OsPath)
    (h : fs.hasPath q = true) :
    ((linkOne fs out base flag rel t w).2.1).hasPath q = true := by
  cases flag with
  | false => exact h
  | true =>
    cases base with
    | none => exact h
    | some dir =>
      cases out with
      | spawnError m => exact h
      | exited ok =>
        cases ok
        · exact h
        · exact FS.hasPath_addPath_of fs _ q h

theorem linkOne_spawnError (fs : FS) (m : String) (dir : OsPath)
    (rel : String) (t w : OsPath) :
    linkOne fs (.spawnError m) (some dir) true rel t w
      = (.error m, fs, [⟨dir ++ [rel], t, w, fs.hasPath t⟩]) := rfl

theorem linkOne_exited (fs : FS) (b : Bool) (dir : OsPath)
    (rel : String) (t w : OsPath) :
    linkOne fs (.exited b) (some dir) true rel t w
      = (.ok (), if b then fs.addPath (dir ++ [rel]) else fs,
          [⟨dir ++ [rel], t, w, fs.hasPath t⟩]) := rfl

/-! ## Claim C1: extraction failures in the orchestrated install -/

/-- Claim C1 (amended): if the structured payload cannot be parsed,
`install_msi_payload` aborts with the extractor's error — no entry is
written, no shortcut is attempted and neither the 17/20 nor the final 1
progress event is emitted.  A reported failure to write a contained entry,
however, is NOT surfaced: the source discards the result of the extraction
call, so the run is identical to one in which no write failure was
reported, and linking and the final progress event 1 still occur. -/
theorem install_extract_error_contract (env : SysEnv) (fs : FS)
    (installerPath installDir : OsPath) (exeName appName : String)
    (d s : Bool) (dOut sOut : SpawnOutcome) (msg : String)
    (entries : List OsPath) (werr : String)
    (hinst : fs.hasPath installerPath = true) :
    install_msi_payload env fs installerPath installDir exeName appName d s
        (.parseError msg) dOut sOut
      = (.error msg, [1/10], fs.addPath installDir, []) ∧
    install_msi_payload env fs installerPath installDir exeName appName d s
        (.extracted entries (some werr)) dOut sOut
      = install_msi_payload env fs installerPath installDir exeName appName d s
          (.extracted entries none) dOut sOut := by
  constructor
  · simp [install_msi_payload, hinst]
  · simp [install_msi_payload, hinst]

/-- Witness for the extraction-failure theorem at concrete inputs. -/
theorem install_extract_error_contract_witness :
    (⟨[["inst.msi"]]⟩ : FS).hasPath ["inst.msi"] = true ∧
    (install_msi_payload ⟨some ["Desk"], some "Roam"⟩ ⟨[["inst.msi"]]⟩
        ["inst.msi"] ["C", "App"] "app.exe" "App" false false
        (.parseError "bad archive") (.exited true) (.exited true)
      = (.error "bad archive", [1/10],
          (⟨[["inst.msi"]]⟩ : FS).addPath ["C", "App"], []) ∧
    install_msi_payload ⟨some ["Desk"], some "Roam"⟩ ⟨[["inst.msi"]]⟩
        ["inst.msi"] ["C", "App"] "app.exe" "App" false false
        (.extracted [["app.exe"]] (some "disk full")) (.exited true) (.exited true)
      = install_msi_payload ⟨some ["Desk"], some "Roam"⟩ ⟨[["inst.msi"]]⟩
          ["inst.msi"] ["C", "App"] "app.exe" "App" false false
          (.extracted [["app.exe"]] none) (.exited true) (.exited true)) :=
  ⟨rfl, install_extract_error_contract _ _ _ _ _ _ _ _ _ _ _ _ _ rfl⟩

/-- Counterexample to claim C1 as stated: an orchestrated install in which
a contained entry cannot be written (the extractor reports a write error)
still returns success and still emits the final progress event 1, instead
of aborting with an extraction error. -/
theorem install_extract_write_error_counterexample :
    (install_msi_payload ⟨some ["Desk"], some "Roam"⟩ ⟨[["inst.msi"]]⟩
        ["inst.msi"] ["C", "App"] "app.exe" "App" false false
        (.extracted [["app.exe"]] (some "entry write failed"))
        (.exited true) (.exited true)).1 = .ok () ∧
    (install_msi_payload ⟨some ["Desk"], some "Roam"⟩ ⟨[["inst.msi"]]⟩
        ["inst.msi"] ["C", "App"] "app.exe" "App" false false
        (.extracted [["app.exe"]] (some "entry write failed"))
        (.exited true) (.exited true)).2.1.getLast? = some 1 :=
  ⟨rfl, rfl⟩

/-! ## Claim C2: failures while creating an individual shortcut -/

/-- Claim C2 (amended): in the linking step of `install_msi_payload` an
error returned by `create_shortcut` (directory creation or process spawn
failure) is NOT swallowed: it aborts the whole operation, the remaining
shortcut kind is not attempted and the final progress event 1 is not
emitted.  What IS swallowed is a failure of the shortcut tool itself: the
exit status of the spawned process is never inspected, so when the process
runs and fails, the remaining kind is still attempted and the install
returns success with the final progress event 1. -/
theorem install_linking_failure_contract (env : SysEnv) (fs : FS)
    (installerPath installDir : OsPath) (exeName appName : String)
    (entries : List OsPath) (werr : Option String) (m : String) (b : Bool)
    (sOut : SpawnOutcome) (dsk : OsPath) (ad : String)
    (hinst : fs.hasPath installerPath = true)
    (hdsk : env.desktopDir = some dsk) (had : env.appData = some ad) :
    ((install_msi_payload env fs installerPath installDir exeName appName
        true true (.extracted entries werr) (.spawnError m) sOut).1
        = .error m ∧
      (install_msi_payload env fs installerPath installDir exeName appName
        true true (.extracted entries werr) (.spawnError m) sOut).2.1
        = [1/10, 17/20] ∧
      (install_msi_payload env fs installerPath installDir exeName appName
        true true (.extracted entries werr) (.spawnError m) sOut).2.2.2.length
        = 1) ∧
    ((install_msi_payload env fs installerPath installDir exeName appName
        true true (.extracted entries werr) (.exited false) (.exited b)).1
        = .ok () ∧
      (install_msi_payload env fs installerPath installDir exeName appName
        true true (.extracted entries werr) (.exited false) (.exited b)).2.1
        = [1/10, 17/20, 1] ∧
      (install_msi_payload env fs installerPath installDir exeName appName
        true true (.extracted entries werr) (.exited false) (.exited b)).2.2.2.length
        = 2) := by
  constructor
  · constructor
    · simp [install_msi_payload, hinst, hdsk, linkOne_spawnError]
    constructor
    · simp [install_msi_payload, hinst, hdsk, linkOne_spawnError]
    · simp [install_msi_payload, hinst, hdsk, linkOne_spawnError]
  · constructor
    · simp [install_msi_payload, hinst, hdsk, had, linkOne_exited]
    constructor
    · simp [install_msi_payload, hinst, hdsk, had, linkOne_exited]
    · simp [install_msi_payload, hinst, hdsk, had, linkOne_exited]

/-- Witness for the linking-failure theorem at concrete inputs. -/
theorem install_linking_failure_contract_witness :
    (⟨[["inst.msi"]]⟩ : FS).hasPath ["inst.msi"] = true ∧
    (⟨some ["Desk"], some "Roam"⟩ : SysEnv).desktopDir = some ["Desk"] ∧
    (⟨some ["Desk"], some "Roam"⟩ : SysEnv).appData = some "Roam" ∧
    (((install_msi_payload ⟨some ["Desk"], some "Roam"⟩ ⟨[["inst.msi"]]⟩
        ["inst.msi"] ["C", "App"] "app.exe" "App"
        true true (.extracted [["app.exe"]] none) (.spawnError "boom")
        (.exited true)).1 = .error "boom" ∧
      (install_msi_payload ⟨some ["Desk"], some "Roam"⟩ ⟨[["inst.msi"]]⟩
        ["inst.msi"] ["C", "App"] "app.exe" "App"
        true true (.extracted [["app.exe"]] none) (.spawnError "boom")
        (.exited true)).2.1 = [1/10, 17/20] ∧
      (install_msi_payload ⟨some ["Desk"], some "Roam"⟩ ⟨[["inst.msi"]]⟩
        ["inst.msi"] ["C", "App"] "app.exe" "App"
        true true (.extracted [["app.exe"]] none) (.spawnError "boom")
        (.exited true)).2.2.2.length = 1) ∧
    ((install_msi_payload ⟨some ["Desk"], some "Roam"⟩ ⟨[["inst.msi"]]⟩
        ["inst.msi"] ["C", "App"] "app.exe" "App"
        true true (.extracted [["app.exe"]] none) (.exited false)
        (.exited true)).1 = .ok () ∧
      (install_msi_payload ⟨some ["Desk"], some "Roam"⟩ ⟨[["inst.msi"]]⟩
        ["inst.msi"] ["C", "App"] "app.exe" "App"
        true true (.extracted [["app.exe"]] none) (.exited false)
        (.exited true)).2.1 = [1/10, 17/20, 1] ∧
      (install_msi_payload ⟨some ["Desk"], some "Roam"⟩ ⟨[["inst.msi"]]⟩
        ["inst.msi"] ["C", "App"] "app.exe" "App"
        true true (.extracted [["app.exe"]] none) (.exited false)
        (.exited true)).2.2.2.length = 2)) :=
  ⟨rfl, rfl, rfl,
    install_linking_failure_contract ⟨some ["Desk"], some "Roam"⟩ ⟨[["inst.msi"]]⟩
      ["inst.msi"] ["C", "App"] "app.exe" "App" [["app.exe"]] none "boom" true
      (.exited true) ["Desk"] "Roam" rfl rfl rfl⟩

/-- Counterexample to claim C2 as stated: with both shortcut kinds
requested and both base directories resolving, a spawn failure while
creating the desktop shortcut aborts the install — it returns an error,
emits no final progress event 1 and never attempts the start-menu
shortcut — instead of being swallowed per-shortcut. -/
theorem install_linking_failure_counterexample :
    (install_msi_payload ⟨some ["Desk"], some "Roam"⟩ ⟨[["inst.msi"]]⟩
        ["inst.msi"] ["C", "App"] "app.exe" "App" true true
        (.extracted [["app.exe"]] none) (.spawnError "spawn failed")
        (.exited true)).1 = .error "spawn failed" ∧
    (install_msi_payload ⟨some ["Desk"], some "Roam"⟩ ⟨[["inst.msi"]]⟩
        ["inst.msi"] ["C", "App"] "app.exe" "App" true true
        (.extracted [["app.exe"]] none) (.spawnError "spawn failed")
        (.exited true)).2.1 = [1/10, 17/20] ∧
    (install_msi_payload ⟨some ["Desk"], some "Roam"⟩ ⟨[["inst.msi"]]⟩
        ["inst.msi"] ["C", "App"] "app.exe" "App" true true
        (.extracted [["app.exe"]] none) (.spawnError "spawn failed")
        (.exited true)).2.2.2.length = 1 :=
  ⟨rfl, rfl, rfl⟩

/-! ## Claim C9: target existence at shortcut-creation time -/

/-- Claim C9 (amended): in the `create_shortcuts` command the target is
checked to exist before any linking, so every `create_shortcut` invocation
it performs happens while the target path exists; in the linking step of
`install_msi_payload` no such check exists, and a shortcut can be created
whose target path does not exist at creation time — exhibited by the
concrete run in the second conjunct, whose extracted payload does not
contain the requested executable name. -/
theorem shortcut_target_existence :
    (∀ (env : SysEnv) (fs : FS) (exePath : OsPath) (appName : String)
      (d s : Bool) (dOut sOut : SpawnOutcome),
      ∀ c ∈ (create_shortcuts env fs exePath appName d s dOut sOut).2.2,
        c.targetExistsAtCall = true) ∧
    (∃ c, c ∈ (install_msi_payload ⟨some ["Desk"], none⟩ ⟨[["inst.msi"]]⟩
        ["inst.msi"] ["C", "App"] "app.exe" "App" true false
        (.extracted [["readme.txt"]] none) (.exited true) (.exited true)).2.2.2 ∧
      c.targetExistsAtCall = false) := by
  constructor
  · intro env fs exePath appName d s dOut sOut c hc
    cases h1 : fs.hasPath exePath with
    | false => simp [create_shortcuts, h1] at hc
    | true =>
      by_cases h2 : exePath = []
      · rw [h2] at h1
        simp [create_shortcuts, h1, h2] at hc
      · simp only [create_shortcuts, h1, h2] at hc
        norm_num at hc
        cases hres : (linkOne fs dOut env.desktopDir d (shortcutName appName)
            exePath exePath.dropLast).1 with
        | error e =>
          rw [hres] at hc
          simp only at hc
          rw [linkOne_calls_targetExists fs dOut env.desktopDir d
            (shortcutName appName) exePath exePath.dropLast c hc]
          exact h1
        | ok u =>
          rw [hres] at hc
          simp only at hc
          rcases List.mem_append.mp hc with hm | hm
          · rw [linkOne_calls_targetExists fs dOut env.desktopDir d
              (shortcutName appName) exePath exePath.dropLast c hm]
            exact h1
          · rw [linkOne_calls_targetExists _ sOut (env.appData.map startMenuDir)
              s (shortcutName appName) exePath exePath.dropLast c hm]
            exact linkOne_fs_pres fs dOut env.desktopDir d (shortcutName appName)
              exePath exePath.dropLast exePath h1
  · exact ⟨⟨["Desk", "App.lnk"], ["C", "App", "app.exe"], ["C", "App"], false⟩,
      by decide, rfl⟩

/-- Witness for the shortcut target-existence theorem: a concrete
`create_shortcuts` run whose single recorded invocation has an existing
target. -/
theorem shortcut_target_existence_witness :
    (⟨["Desk", "App.lnk"], ["C", "app.exe"], ["C"], true⟩ : ShortcutCall)
      ∈ (create_shortcuts ⟨some ["Desk"], none⟩ ⟨[["C", "app.exe"]]⟩
          ["C", "app.exe"] "App" true false (.exited true) (.exited true)).2.2 ∧
    (⟨["Desk", "App.lnk"], ["C", "app.exe"], ["C"], true⟩
      : ShortcutCall).targetExistsAtCall = true :=
  ⟨by decide, shortcut_target_existence.1 ⟨some ["Desk"], none⟩
    ⟨[["C", "app.exe"]]⟩ ["C", "app.exe"] "App" true false
    (.exited true) (.exited true) _ (by decide)⟩

/-- Counterexample to claim C9 as stated: an orchestrated install whose
payload does not contain the requested executable still creates a desktop
shortcut, and the recorded invocation shows the target did not exist at
creation time. -/
theorem install_dangling_shortcut_counterexample :
    ((install_msi_payload ⟨some ["Desk"], none⟩ ⟨[["inst.msi"]]⟩ ["inst.msi"]
        ["C", "App"] "app.exe" "App" true false
        (.extracted [["readme.txt"]] none) (.exited true) (.exited true)).2.2.2.map
          ShortcutCall.targetExistsAtCall) = [false] ∧
    (install_msi_payload ⟨some ["Desk"], none⟩ ⟨[["inst.msi"]]⟩ ["inst.msi"]
        ["C", "App"] "app.exe" "App" true false
        (.extracted [["readme.txt"]] none) (.exited true) (.exited true)).1
      = .ok () :=
  ⟨rfl, rfl⟩
